import Mathlib

/-!
Shallow embedding of the book-checklist server (`server.js`): an Express
application backed by Mongoose models `User` and `Book`, with routes for
registration, login, a bearer-token guard, and per-user book CRUD/search.
Pure Lean functions model each route handler; the MongoDB collections are
plain lists inside an explicit `DB` state, and each mutating handler
returns its HTTP-level result paired with the successor state.
-/

set_option autoImplicit false

namespace BookChecklist

/-- A stored `User` document: `UserSchema` has a normalized (trimmed,
lowercased) unique `email` and a bcrypt `password` hash.  Mongo `_id`s are
modelled as `Nat`. -/
structure User where
  id : Nat
  email : String
  password : String
deriving DecidableEq, Repr

/-- A stored `Book` document per `BookSchema`: required `user` reference,
`title`, `author`, `isbn`; optional `date_purchased`, `publisher`, `notes`;
`createdAt` from the schema's timestamps option (modelled as a counter so
that creation order is total). -/
structure Book where
  id : Nat
  user : Nat
  title : String
  author : String
  isbn : String
  date_purchased : Option String
  publisher : Option String
  notes : Option String
  createdAt : Nat
deriving DecidableEq, Repr

/-- The database state: the two Mongo collections plus a freshness counter
supplying new `_id`s and `createdAt` stamps. -/
structure DB where
  users : List User
  books : List Book
  nextId : Nat
deriving DecidableEq, Repr

/-- Models `bcrypt.hash(p, 10)`.  The claims depend only on
`bcrypt.compare(c, h)` succeeding exactly when `c` is the hashed password,
so the one-way salted hash is embedded as an injective tagging. -/
def bhash (p : String) : String := "bcrypt10$" ++ p

/-- Models `bcrypt.compare(candidate, stored)` (`comparePassword`). -/
def bcompare (candidate stored : String) : Bool := bhash candidate == stored

/-- Leading and trailing whitespace removed (the behaviour of a string
`trim`), computed on the character list. -/
def trimChars (l : List Char) : List Char :=
  ((l.dropWhile Char.isWhitespace).reverse.dropWhile Char.isWhitespace).reverse

/-- The `UserSchema` email setters: `trim: true`, `lowercase: true`. -/
def normalizeEmail (e : String) : String :=
  String.mk ((trimChars e.data).map Char.toLower)

/-- JS truthiness of an optional string field of `req.body` (`undefined`
and the empty string are falsy). -/
def truthy : Option String → Bool
  | none => false
  | some s => s != ""

/-- Outcome of `POST /api/register`. -/
inductive RegisterResult where
  | created (message : String)
  | invalidInput (message : String)
  | conflict (message : String)
deriving DecidableEq, Repr

/-- HTTP status of a registration outcome. -/
def RegisterResult.status : RegisterResult → Nat
  | .created _ => 201
  | .invalidInput _ => 400
  | .conflict _ => 409

/-- `POST /api/register`: reject when `!email || !password ||
password.length < 6`; otherwise save a `new User({email, password})`, whose
schema setters normalize the email and whose pre-save hook hashes the
password; a duplicate-key error (code 11000) from the unique email index
maps to HTTP 409. -/
def register (db : DB) (email password : Option String) : RegisterResult × DB :=
  if !truthy email || !truthy password || (password.getD "").length < 6 then
    (.invalidInput "Invalid email or password (must be at least 6 characters).", db)
  else
    if db.users.any (fun u => u.email == normalizeEmail (email.getD "")) then
      (.conflict "Email already exists.", db)
    else
      (.created "User created successfully.",
       { db with
          users := db.users
            ++ [⟨db.nextId, normalizeEmail (email.getD ""), bhash (password.getD "")⟩],
          nextId := db.nextId + 1 })

/-- Outcome of `POST /api/login`. -/
inductive LoginResult where
  | ok (accessToken : String)
  | invalidCredentials (message : String)
deriving DecidableEq, Repr

/-- HTTP status of a login outcome. -/
def LoginResult.status : LoginResult → Nat
  | .ok _ => 200
  | .invalidCredentials _ => 401

/-- The server-held signing secret (`process.env.JWT_SECRET`). -/
def jwtSecret : String := "JWT_SECRET"

/-- Models `jwt.sign` of the payload `id`/`email` with the secret.  No claim
inspects token internals, so the token is an injective encoding; the 7-day
expiry parameter is not observable by any claim and is omitted. -/
def jwtSign (secret : String) (id : Nat) (email : String) : String :=
  secret ++ "|" ++ toString id ++ "|" ++ email

/-- `POST /api/login`: `User.findOne` by email (the schema setters normalize
the filter value), then `comparePassword`; both the unknown-email and the
wrong-password paths return the same 401 response. -/
def login (db : DB) (email password : String) : LoginResult :=
  match db.users.find? (fun u => u.email == normalizeEmail email) with
  | none => .invalidCredentials "Invalid credentials."
  | some u =>
    if bcompare password u.password then .ok (jwtSign jwtSecret u.id u.email)
    else .invalidCredentials "Invalid credentials."

/-- The decoded JWT payload attached to `req.user`. -/
structure Claims where
  id : Nat
  email : String
deriving DecidableEq, Repr

/-- The distinct reasons `jwt.verify` can fail; `authenticateToken` must not
let the caller tell them apart. -/
inductive VerifyErr where
  | malformed
  | expired
  | badSignature
deriving DecidableEq, Repr

/-- Outcome of the `authenticateToken` middleware: `sendStatus(401)`,
`sendStatus(403)`, or `req.user = decoded; next()`. -/
inductive AuthResult where
  | unauthenticated
  | forbidden
  | ok (user : Claims)
deriving DecidableEq, Repr

/-- HTTP status of a guard outcome (200 standing for "proceed to the
handler"). -/
def AuthResult.status : AuthResult → Nat
  | .unauthenticated => 401
  | .forbidden => 403
  | .ok _ => 200

/-- The splitting of a string on a single separator character, with the
semantics of the JS `split` for a one-character separator: the empty string
yields one empty field, and separators at the edges yield empty fields. -/
def splitChars (sep : Char) : List Char → List (List Char)
  | [] => [[]]
  | c :: cs =>
    if c == sep then [] :: splitChars sep cs
    else
      match splitChars sep cs with
      | [] => [[c]]
      | w :: ws => (c :: w) :: ws

/-- The token extraction of the middleware, including JS corner cases:
an absent header short-circuits to `undefined`; an empty header
short-circuits the `&&` to the (non-null) empty string; otherwise the
token is `authHeader.split(' ')[1]`, which is `undefined` when the header
has no second space-separated part. -/
def extractToken : Option String → Option String
  | none => none
  | some h =>
    if h == "" then some ""
    else ((splitChars ' ' h.data).map String.mk)[1]?

/-- `authenticateToken`, parameterized by the outcome of `jwt.verify` on
the extracted token: `401` when `token == null`, `403` on any verification
error, otherwise attach the decoded payload. -/
def authenticateToken (verify : String → Except VerifyErr Claims)
    (authHeader : Option String) : AuthResult :=
  match extractToken authHeader with
  | none => .unauthenticated
  | some t =>
    match verify t with
    | .error _ => .forbidden
    | .ok d => .ok d

/-- A `PUT`/`POST` request body for a book: the six client-facing fields
plus the `user` schema path, which a raw `req.body` may also contain.
`none` models a field absent from the JSON body. -/
structure BookBody where
  title : Option String := none
  author : Option String := none
  isbn : Option String := none
  date_purchased : Option String := none
  publisher : Option String := none
  notes : Option String := none
  user : Option Nat := none
deriving DecidableEq, Repr

/-- Outcome of `POST /api/books`. -/
inductive AddResult where
  | created (book : Book)
  | invalidInput (message : String)
  | conflict (message : String) (book : Book)
deriving DecidableEq, Repr

/-- HTTP status of an add outcome. -/
def AddResult.status : AddResult → Nat
  | .created _ => 201
  | .invalidInput _ => 400
  | .conflict _ _ => 409

/-- The document stored by `new Book({...req.body, user: req.user.id})`:
the spread of the body is overridden on the `user` path, so the stored
owner is always the authenticated caller, whatever the body contained. -/
def newBook (db : DB) (callerId : Nat) (body : BookBody) : Book :=
  { id := db.nextId, user := callerId,
    title := body.title.getD "", author := body.author.getD "",
    isbn := body.isbn.getD "",
    date_purchased := body.date_purchased, publisher := body.publisher,
    notes := body.notes, createdAt := db.nextId }

/-- `POST /api/books`: require truthy `title`, `author`, `isbn`; reject with
409 (carrying the conflicting record) when `Book.findOne({isbn, user})`
matches an existing record of the caller; otherwise save the new book. -/
def addBook (db : DB) (callerId : Nat) (body : BookBody) : AddResult × DB :=
  if !truthy body.title || !truthy body.author || !truthy body.isbn then
    (.invalidInput "Title, Author, and ISBN are required.", db)
  else
    match db.books.find? (fun b => b.isbn == body.isbn.getD "" && b.user == callerId) with
    | some existing =>
      (.conflict ("You already own this book (ISBN: " ++ body.isbn.getD "" ++ ").") existing, db)
    | none =>
      (.created (newBook db callerId body),
       { db with books := db.books ++ [newBook db callerId body], nextId := db.nextId + 1 })

/-- The effect of `findOneAndUpdate(filter, req.body)` on the matched
document: Mongoose casts the bare update object to a `$set`, so exactly the
schema paths present in the body are overwritten and every absent path
keeps its stored value.  `user` is a schema path, so a body containing it
overwrites the owner reference. -/
def applyUpdate (b : Book) (body : BookBody) : Book :=
  { b with
    title := body.title.getD b.title,
    author := body.author.getD b.author,
    isbn := body.isbn.getD b.isbn,
    date_purchased := match body.date_purchased with
      | some d => some d
      | none => b.date_purchased,
    publisher := match body.publisher with
      | some p => some p
      | none => b.publisher,
    notes := match body.notes with
      | some n => some n
      | none => b.notes,
    user := body.user.getD b.user }

/-- Replace the first list element satisfying `p` by its image under `f`
(Mongo's `findOneAndUpdate` touches one document). -/
def updateFirst (p : Book → Bool) (f : Book → Book) : List Book → List Book
  | [] => []
  | b :: bs => if p b then f b :: bs else b :: updateFirst p f bs

/-- Drop the first list element satisfying `p` (Mongo's `findOneAndDelete`
removes one document). -/
def removeFirst (p : Book → Bool) : List Book → List Book
  | [] => []
  | b :: bs => if p b then bs else b :: removeFirst p bs

/-- Outcome of `PUT /api/books/:id`. -/
inductive UpdateResult where
  | ok (book : Book)
  | notFound (message : String)
deriving DecidableEq, Repr

/-- HTTP status of an update outcome. -/
def UpdateResult.status : UpdateResult → Nat
  | .ok _ => 200
  | .notFound _ => 404

/-- Outcome of `DELETE /api/books/:id`. -/
inductive DeleteResult where
  | noContent
  | notFound (message : String)
deriving DecidableEq, Repr

/-- HTTP status of a delete outcome. -/
def DeleteResult.status : DeleteResult → Nat
  | .noContent => 204
  | .notFound _ => 404

/-- The owner-scoped filter `{_id: req.params.id, user: req.user.id}` used
by both `findOneAndUpdate` and `findOneAndDelete`. -/
def ownerFilter (callerId bookId : Nat) (b : Book) : Bool :=
  b.id == bookId && b.user == callerId

/-- `PUT /api/books/:id`: `findOneAndUpdate` with the owner-scoped filter
and the raw `req.body`; a missing or foreign-owned id yields 404 and leaves
the state unchanged. -/
def updateBook (db : DB) (callerId bookId : Nat) (body : BookBody) :
    UpdateResult × DB :=
  match db.books.find? (ownerFilter callerId bookId) with
  | none => (.notFound "Book not found or you do not have permission.", db)
  | some b =>
    (.ok (applyUpdate b body),
     { db with
        books := updateFirst (ownerFilter callerId bookId)
          (fun x => applyUpdate x body) db.books })

/-- `DELETE /api/books/:id`: `findOneAndDelete` with the owner-scoped
filter; a missing or foreign-owned id yields 404 and leaves the state
unchanged. -/
def deleteBook (db : DB) (callerId bookId : Nat) : DeleteResult × DB :=
  match db.books.find? (ownerFilter callerId bookId) with
  | none => (.notFound "Book not found or you do not have permission.", db)
  | some _ =>
    (.noContent, { db with books := removeFirst (ownerFilter callerId bookId) db.books })

/-- Descending insertion by `createdAt`, modelling the
`sort({createdAt: -1})` of the list route. -/
def insertByCreated (b : Book) : List Book → List Book
  | [] => [b]
  | c :: cs => if c.createdAt ≤ b.createdAt then b :: c :: cs else c :: insertByCreated b cs

/-- Sort a book list newest-created first. -/
def sortByCreatedDesc : List Book → List Book
  | [] => []
  | b :: bs => insertByCreated b (sortByCreatedDesc bs)

/-- `GET /api/books`: `Book.find({user: req.user.id}).sort({createdAt: -1})`. -/
def listBooks (db : DB) (callerId : Nat) : List Book :=
  sortByCreatedDesc (db.books.filter (fun b => b.user == callerId))

/-- A token of the pattern built by `new RegExp(query, 'i')`: within the
literal-and-wildcard fragment of the JS regex grammar, every character of
the query is a literal except `.`, which matches any character. -/
inductive RTok where
  | dot
  | lit (c : Char)
deriving DecidableEq, Repr

/-- Compile the query string into pattern tokens.  This models
`new RegExp(query, 'i')` only on the literal-plus-wildcard fragment of the
JS regex grammar: queries whose characters are all literals except the
wildcard `.`.  Queries containing other metacharacters (repetition,
groups, classes, ...) or syntactically invalid patterns lie outside the
model, so every statement proved below that quantifies over queries
restricts them to metacharacter-free (alphanumeric) queries; the single
concrete dot query used against the substring reading is an input on which
the JS regex and this model agree. -/
def parseRegex (q : String) : List RTok :=
  q.data.map (fun c => if c == '.' then RTok.dot else RTok.lit c)

/-- One pattern token against one subject character, under the
case-insensitive flag. -/
def tokMatches : RTok → Char → Bool
  | .dot, _ => true
  | .lit c, d => c.toLower == d.toLower

/-- Whether the pattern matches at the start of the subject. -/
def matchesAt : List RTok → List Char → Bool
  | [], _ => true
  | _ :: _, [] => false
  | t :: ts, c :: cs => tokMatches t c && matchesAt ts cs

/-- Whether the pattern matches at some position of the subject (the
unanchored `regex.test`). -/
def matchesIn (ts : List RTok) : List Char → Bool
  | [] => matchesAt ts []
  | c :: cs => matchesAt ts (c :: cs) || matchesIn ts cs

/-- `new RegExp(q, 'i').test(s)` for queries in the fragment modelled by
`parseRegex`; for queries with metacharacters other than `.` it does not
follow the JS semantics, and no theorem below applies it to them. -/
def regexTestI (q s : String) : Bool := matchesIn (parseRegex q) s.data

/-- The `$or` of the search route: the pattern tested against `title`,
`author`, and `isbn`. -/
def bookMatches (q : String) (b : Book) : Bool :=
  regexTestI q b.title || regexTestI q b.author || regexTestI q b.isbn

/-- Outcome of `GET /api/search`. -/
inductive SearchResult where
  | ok (books : List Book)
  | invalidInput (message : String)
deriving DecidableEq, Repr

/-- HTTP status of a search outcome. -/
def SearchResult.status : SearchResult → Nat
  | .ok _ => 200
  | .invalidInput _ => 400

/-- `GET /api/search`: 400 on a falsy `query`, otherwise the caller's books
whose `title`, `author`, or `isbn` tests positive against
`new RegExp(query, 'i')`.  In the real handler `new RegExp` can throw a
`SyntaxError` on an invalid pattern (an unbalanced parenthesis, say) and
the route's catch then answers 500; that error path, like the
metacharacter semantics, is outside the fragment modelled by `parseRegex`,
so the theorems below only ever evaluate this function on queries for
which the pattern compiles and the fragment is faithful. -/
def searchBooks (db : DB) (callerId : Nat) (query : Option String) : SearchResult :=
  if !truthy query then .invalidInput "Search query is required."
  else
    .ok (db.books.filter (fun b => b.user == callerId && bookMatches (query.getD "") b))

/-- Spec-side helper: `needle` is an initial segment of `hay` (character
lists). -/
def startsWithList : List Char → List Char → Bool
  | [], _ => true
  | _ :: _, [] => false
  | c :: cs, d :: ds => c == d && startsWithList cs ds

/-- Spec-side helper: `needle` occurs contiguously somewhere in `hay`. -/
def occursIn (needle : List Char) : List Char → Bool
  | [] => startsWithList needle []
  | c :: cs => startsWithList needle (c :: cs) || occursIn needle cs

/-- Spec-side definition, following the spec's words: the query occurs in
the field "as a case-insensitive substring".  Used only to compare the
implementation's behaviour against the specification. -/
def specContainsCI (hay q : String) : Bool :=
  occursIn (q.data.map Char.toLower) (hay.data.map Char.toLower)

/-- Spec-side definition: some searched field of the book contains the
query as a case-insensitive substring. -/
def specBookMatches (q : String) (b : Book) : Bool :=
  specContainsCI b.title q || specContainsCI b.author q || specContainsCI b.isbn q

/-- Mongo `_id` uniqueness across the books collection (guaranteed by the
storage layer; a frame condition of the list model). -/
@[reducible] def uniqueIds (l : List Book) : Prop :=
  l.Pairwise (fun a b => a.id ≠ b.id)

/-- The spec's data-model invariant: no user holds two records with the
same ISBN. -/
@[reducible] def isbnUniquePerUser (l : List Book) : Prop :=
  l.Pairwise (fun a b => ¬(a.user = b.user ∧ a.isbn = b.isbn))

/-! Concrete scenarios used by counterexamples and witnesses. -/

def cx1Db0 : DB := { users := [], books := [], nextId := 0 }

def cx1Body1 : BookBody := { title := some "A", author := some "a", isbn := some "1" }

def cx1Body2 : BookBody := { title := some "B", author := some "b", isbn := some "2" }

def cx1Body3 : BookBody := { isbn := some "1" }

def cx1Db1 : DB := (addBook cx1Db0 1 cx1Body1).2

def cx1Db2 : DB := (addBook cx1Db1 1 cx1Body2).2

def cx1Db3 : DB := (updateBook cx1Db2 1 1 cx1Body3).2

def cx2Book : Book :=
  { id := 0, user := 1, title := "T", author := "A", isbn := "9",
    date_purchased := none, publisher := none, notes := none, createdAt := 0 }

def cx2Db : DB := { users := [], books := [cx2Book], nextId := 1 }

def cx2Body : BookBody := { user := some 2 }

def cx3Book : Book :=
  { id := 0, user := 1, title := "abc", author := "xyz", isbn := "777",
    date_purchased := none, publisher := none, notes := none, createdAt := 0 }

def cx3Db : DB := { users := [], books := [cx3Book], nextId := 1 }

def wBook1 : Book :=
  { id := 0, user := 1, title := "T", author := "A", isbn := "1",
    date_purchased := none, publisher := none, notes := none, createdAt := 0 }

def wDb : DB := { users := [], books := [wBook1], nextId := 1 }

def wBodyDup : BookBody := { title := some "X", author := some "Y", isbn := some "1" }

def wBodyNew : BookBody := { title := some "X", author := some "Y", isbn := some "2" }

def wBook2 : Book :=
  { id := 1, user := 1, title := "X", author := "Y", isbn := "2",
    date_purchased := none, publisher := none, notes := none, createdAt := 1 }

def wDb2 : DB := { users := [], books := [wBook1, wBook2], nextId := 2 }

def w5Db2 : DB := { users := [], books := [], nextId := 1 }

def w4User : User := { id := 0, email := "a@b.c", password := bhash "secret1" }

def w4Db : DB := { users := [w4User], books := [], nextId := 1 }

def w6Body : BookBody := { title := some "X" }

def w9VerifyOk : String → Except VerifyErr Claims :=
  fun _ => .ok { id := 3, email := "a@b.c" }

def w9VerifyExpired : String → Except VerifyErr Claims := fun _ => .error .expired

def w9VerifyBadSig : String → Except VerifyErr Claims := fun _ => .error .badSignature

def w6Book : Book :=
  { id := 0, user := 1, title := "X", author := "A", isbn := "1",
    date_purchased := none, publisher := none, notes := none, createdAt := 0 }

def w6Db2 : DB := { users := [], books := [w6Book], nextId := 1 }

def w10Body : BookBody :=
  { title := some "T2", author := some "A2", isbn := some "I2", user := some 99 }

def w10Book : Book :=
  { id := 1, user := 7, title := "T2", author := "A2", isbn := "I2",
    date_purchased := none, publisher := none, notes := none, createdAt := 1 }

def w10Db2 : DB := { users := [], books := [wBook1, w10Book], nextId := 2 }

/-! Helper lemmas about the list-level operations. -/

theorem removeFirst_sublist (p : Book → Bool) :
    ∀ l : List Book, List.Sublist (removeFirst p l) l := by
  intro l
  induction l with
  | nil => exact List.Sublist.refl []
  | cons b bs ih =>
    by_cases h : p b
    · simp only [removeFirst, h, if_true]
      exact (List.Sublist.refl bs).cons b
    · simpa [removeFirst, h] using ih.cons₂ b

theorem updateFirst_map_of_preserve {β : Type} (p : Book → Bool) (f : Book → Book)
    (g : Book → β) (h : ∀ x, g (f x) = g x) :
    ∀ l : List Book, (updateFirst p f l).map g = l.map g := by
  intro l
  induction l with
  | nil => rfl
  | cons b bs ih =>
    by_cases hb : p b
    · simp [updateFirst, hb, h]
    · simp [updateFirst, hb, ih]

theorem addBook_created_inv (db : DB) (uid : Nat) (body : BookBody) (nb : Book) (db2 : DB)
    (h : addBook db uid body = (AddResult.created nb, db2)) :
    nb = newBook db uid body
    ∧ db2 = { db with books := db.books ++ [newBook db uid body], nextId := db.nextId + 1 } := by
  unfold addBook at h
  split at h
  · exact absurd h (by simp)
  · split at h
    · exact absurd h (by simp)
    · obtain ⟨h1, h2⟩ := Prod.mk.injEq .. ▸ h
      exact ⟨(AddResult.created.injEq .. ▸ h1).symm, h2.symm⟩

/-- C10: every successfully added book is owned by the authenticated
caller; the `user` field of the request body is ignored outright, so a
client cannot create a record owned by another user. -/
theorem c10_add_owner_is_caller :
    (∀ (db : DB) (uid : Nat) (body : BookBody) (nb : Book) (db2 : DB),
        addBook db uid body = (AddResult.created nb, db2) →
        nb.user = uid ∧ nb ∈ db2.books)
  ∧ (∀ (db : DB) (uid : Nat) (body : BookBody) (v : Option Nat),
        addBook db uid { body with user := v } = addBook db uid body) := by
  constructor
  · intro db uid body nb db2 h
    obtain ⟨hnb, hdb⟩ := addBook_created_inv db uid body nb db2 h
    subst hdb
    subst hnb
    exact ⟨rfl, by simp⟩
  · intro db uid body v
    obtain ⟨t, a, i, d, pb, nt, u⟩ := body
    rfl

theorem c10_witness :
    w10Book.user = 7 ∧ w10Book ∈ w10Db2.books :=
  c10_add_owner_is_caller.1 wDb 7 w10Body w10Book w10Db2 (by decide)

/-- C1 (counterexample): the claimed invariant is not preserved by every
operation.  A user adds ISBN "1", adds ISBN "2", then updates the second
record's `isbn` to "1": every step succeeds, and the final state holds two
records of user 1 with ISBN "1" — `PUT /api/books/:id` never re-checks ISBN
uniqueness. -/
theorem c1_counterexample :
    (addBook cx1Db0 1 cx1Body1).1.status = 201
  ∧ (addBook cx1Db1 1 cx1Body2).1.status = 201
  ∧ (updateBook cx1Db2 1 1 cx1Body3).1.status = 200
  ∧ cx1Db3.books.map (fun b => (b.user, b.isbn)) = [(1, "1"), (1, "1")]
  ∧ ¬ isbnUniquePerUser cx1Db3.books := by
  refine ⟨rfl, rfl, rfl, rfl, by decide⟩

/-- C1 (amended): `add` fails with the 409 duplicate-ISBN conflict
(carrying the existing record) when the caller already owns that ISBN, and
per-user ISBN uniqueness is preserved by `add` and `delete`; uniqueness is
scoped per user (an add of an ISBN held only by other users succeeds with
201).  `update`, however, does not re-check the ISBN, so an update can
leave one user holding two records with the same ISBN. -/
theorem c1_amended :
    (∀ (db : DB) (uid : Nat) (body : BookBody) (i : String),
        body.isbn = some i → truthy body.title = true → truthy body.author = true →
        i ≠ "" → (∃ b0 ∈ db.books, b0.user = uid ∧ b0.isbn = i) →
        ∃ ex, addBook db uid body
            = (AddResult.conflict ("You already own this book (ISBN: " ++ i ++ ").") ex, db)
          ∧ ex.user = uid ∧ ex.isbn = i ∧ (addBook db uid body).1.status = 409)
  ∧ (∀ (db : DB) (uid : Nat) (body : BookBody),
        isbnUniquePerUser db.books → isbnUniquePerUser (addBook db uid body).2.books)
  ∧ (∀ (db : DB) (uid bid : Nat),
        isbnUniquePerUser db.books → isbnUniquePerUser (deleteBook db uid bid).2.books)
  ∧ (∀ (db : DB) (uid : Nat) (body : BookBody) (i : String),
        body.isbn = some i → truthy body.title = true → truthy body.author = true →
        i ≠ "" → (∀ b ∈ db.books, ¬(b.user = uid ∧ b.isbn = i)) →
        (addBook db uid body).1.status = 201) := by
  refine ⟨?_, ?_, ?_, ?_⟩
  · intro db uid body i hi ht ha hne hex
    have hcond : (!truthy body.title || !truthy body.author || !truthy body.isbn) = false := by
      rw [ht, ha, hi]
      simp [truthy, hne]
    have hq : (db.books.find? (fun b => b.isbn == body.isbn.getD "" && b.user == uid)).isSome := by
      rw [List.find?_isSome]
      obtain ⟨b0, hb0, hu0, hi0⟩ := hex
      exact ⟨b0, hb0, by simp [hi, hu0, hi0]⟩
    obtain ⟨ex, hex'⟩ := Option.isSome_iff_exists.mp hq
    have hpex := List.find?_some hex'
    simp [hi] at hpex
    refine ⟨ex, ?_, hpex.2, hpex.1, ?_⟩
    · unfold addBook
      rw [if_neg (by rw [hcond]; exact Bool.false_ne_true)]
      rw [hex']
      simp [hi]
    · unfold addBook
      rw [if_neg (by rw [hcond]; exact Bool.false_ne_true)]
      rw [hex']
      rfl
  · intro db uid body hun
    cases hcond : (!truthy body.title || !truthy body.author || !truthy body.isbn) with
    | true => simpa [addBook, hcond] using hun
    | false =>
      cases hf : db.books.find? (fun b => b.isbn == body.isbn.getD "" && b.user == uid) with
      | some ex => simpa [addBook, hcond, hf] using hun
      | none =>
        have hgoal : isbnUniquePerUser (db.books ++ [newBook db uid body]) := by
          unfold isbnUniquePerUser
          rw [List.pairwise_append]
          refine ⟨hun, by simp, ?_⟩
          intro a ha b hb
          simp only [List.mem_singleton] at hb
          subst hb
          intro h
          have hba : (a.isbn == body.isbn.getD "" && a.user == uid) = true := by
            simp [newBook] at h
            simp [h.1, h.2]
          exact absurd hba (by simpa using List.find?_eq_none.mp hf a ha)
        simpa [addBook, hcond, hf] using hgoal
  · intro db uid bid hun
    cases hf : db.books.find? (ownerFilter uid bid) with
    | none => simpa [deleteBook, hf] using hun
    | some b =>
      have hgoal : isbnUniquePerUser (removeFirst (ownerFilter uid bid) db.books) :=
        List.Pairwise.sublist (removeFirst_sublist _ _) hun
      simpa [deleteBook, hf] using hgoal
  · intro db uid body i hi ht ha hne hnone
    have hcond : (!truthy body.title || !truthy body.author || !truthy body.isbn) = false := by
      rw [ht, ha, hi]
      simp [truthy, hne]
    have hf : db.books.find? (fun b => b.isbn == body.isbn.getD "" && b.user == uid) = none := by
      rw [List.find?_eq_none]
      intro b hb
      simp [hi]
      intro hbi hbu
      exact absurd ⟨hbu, hbi⟩ (hnone b hb)
    simp [addBook, hcond, hf, AddResult.status]

theorem c1_amended_witness :
    (∃ ex, addBook wDb 1 wBodyDup
        = (AddResult.conflict ("You already own this book (ISBN: " ++ "1" ++ ").") ex, wDb)
      ∧ ex.user = 1 ∧ ex.isbn = "1" ∧ (addBook wDb 1 wBodyDup).1.status = 409)
  ∧ isbnUniquePerUser (addBook wDb 1 wBodyNew).2.books
  ∧ isbnUniquePerUser (deleteBook wDb 1 0).2.books
  ∧ (addBook wDb 2 wBodyDup).1.status = 201 :=
  ⟨c1_amended.1 wDb 1 wBodyDup "1" rfl rfl rfl (by decide) (by decide),
   c1_amended.2.1 wDb 1 wBodyNew (by decide),
   c1_amended.2.2.1 wDb 1 0 (by decide),
   c1_amended.2.2.2 wDb 2 wBodyDup "1" rfl rfl rfl (by decide) (by decide)⟩

/-- C2 (counterexample): ownership does transfer under the code.  With a
book owned by user 1, a `PUT /api/books/:id` from user 1 whose body
contains `user: 2` succeeds and leaves the record owned by user 2, because
the raw body is passed to `findOneAndUpdate` and `user` is a schema path. -/
theorem c2_counterexample :
    (updateBook cx2Db 1 0 cx2Body).1.status = 200
  ∧ cx2Db.books.map (fun b => (b.id, b.user)) = [(0, 1)]
  ∧ (updateBook cx2Db 1 0 cx2Body).2.books.map (fun b => (b.id, b.user)) = [(0, 2)] := by
  refine ⟨rfl, rfl, rfl⟩

/-- C2 (amended): a book's owner is assigned at creation to the
authenticated caller; `delete` never changes any surviving record, and an
`update` whose body does not contain a `user` field preserves every
record's owner (an update body containing `user` reassigns ownership). -/
theorem c2_amended :
    (∀ (db : DB) (uid bid : Nat) (body : BookBody), body.user = none →
        (updateBook db uid bid body).2.books.map (fun b => (b.id, b.user))
          = db.books.map (fun b => (b.id, b.user)))
  ∧ (∀ (db : DB) (uid bid : Nat) (b : Book),
        b ∈ (deleteBook db uid bid).2.books → b ∈ db.books)
  ∧ (∀ (db : DB) (uid : Nat) (body : BookBody) (nb : Book) (db2 : DB),
        addBook db uid body = (AddResult.created nb, db2) →
        nb.user = uid ∧ db2.books = db.books ++ [nb]) := by
  refine ⟨?_, ?_, ?_⟩
  · intro db uid bid body hu
    simp only [updateBook]
    cases hf : db.books.find? (ownerFilter uid bid) with
    | none => rfl
    | some b =>
      exact updateFirst_map_of_preserve _ _ _ (fun x => by simp [applyUpdate, hu]) db.books
  · intro db uid bid b
    simp only [deleteBook]
    cases hf : db.books.find? (ownerFilter uid bid) with
    | none => exact fun hb => hb
    | some x =>
      intro hb
      exact (removeFirst_sublist (ownerFilter uid bid) db.books).subset hb
  · intro db uid body nb db2 h
    obtain ⟨hnb, hdb⟩ := addBook_created_inv db uid body nb db2 h
    subst hdb
    subst hnb
    exact ⟨rfl, rfl⟩

theorem c2_amended_witness :
    (updateBook wDb 1 0 w6Body).2.books.map (fun b => (b.id, b.user))
      = wDb.books.map (fun b => (b.id, b.user))
  ∧ (wBook1 ∈ (deleteBook wDb 1 5).2.books → wBook1 ∈ wDb.books)
  ∧ (wBook2.user = 1 ∧ wDb2.books = wDb.books ++ [wBook2]) :=
  ⟨c2_amended.1 wDb 1 0 w6Body rfl,
   c2_amended.2.1 wDb 1 5 wBook1,
   c2_amended.2.2 wDb 1 wBodyNew wBook2 wDb2 (by decide)⟩

theorem find?_removeFirst_none (uid bid : Nat) :
    ∀ l : List Book, uniqueIds l →
      (removeFirst (ownerFilter uid bid) l).find? (ownerFilter uid bid) = none := by
  intro l
  induction l with
  | nil => intro _; rfl
  | cons x xs ih =>
    intro hu
    obtain ⟨hx, hxs⟩ := List.pairwise_cons.mp hu
    cases hpx : ownerFilter uid bid x with
    | true =>
      rw [removeFirst, if_pos hpx]
      rw [List.find?_eq_none]
      intro y hy hpy
      have hxid : x.id = bid := by
        have := hpx
        simp [ownerFilter] at this
        exact this.1
      have hyid : y.id = bid := by
        simp [ownerFilter] at hpy
        exact hpy.1
      exact absurd (hxid.trans hyid.symm) (hx y hy)
    | false =>
      rw [removeFirst, if_neg (by rw [hpx]; exact Bool.false_ne_true)]
      rw [List.find?_cons_of_neg _ (by rw [hpx]; exact Bool.false_ne_true)]
      exact ih hxs

/-- C5: for a `bookId` that either does not exist or belongs to a different
user, `update` and `remove` both fail with exactly the same 404 response
and leave the state untouched (so nothing of the foreign record is
revealed); and deleting an id twice yields 404 the second time. -/
theorem c5_notfound_scoped :
    (∀ (db : DB) (uid bid : Nat) (body : BookBody),
        (∀ b ∈ db.books, ¬(b.id = bid ∧ b.user = uid)) →
        updateBook db uid bid body
            = (UpdateResult.notFound "Book not found or you do not have permission.", db)
          ∧ deleteBook db uid bid
            = (DeleteResult.notFound "Book not found or you do not have permission.", db)
          ∧ (updateBook db uid bid body).1.status = 404
          ∧ (deleteBook db uid bid).1.status = 404)
  ∧ (∀ (db : DB) (uid bid : Nat) (db2 : DB), uniqueIds db.books →
        deleteBook db uid bid = (DeleteResult.noContent, db2) →
        deleteBook db2 uid bid
          = (DeleteResult.notFound "Book not found or you do not have permission.", db2)) := by
  constructor
  · intro db uid bid body h
    have hf : db.books.find? (ownerFilter uid bid) = none := by
      rw [List.find?_eq_none]
      intro b hb hpb
      simp [ownerFilter] at hpb
      exact absurd hpb (h b hb)
    have hu : updateBook db uid bid body
        = (UpdateResult.notFound "Book not found or you do not have permission.", db) := by
      unfold updateBook
      rw [hf]
    have hd : deleteBook db uid bid
        = (DeleteResult.notFound "Book not found or you do not have permission.", db) := by
      unfold deleteBook
      rw [hf]
    refine ⟨hu, hd, ?_, ?_⟩
    · rw [hu]
      rfl
    · rw [hd]
      rfl
  · intro db uid bid db2 hids h
    unfold deleteBook at h
    cases hf : db.books.find? (ownerFilter uid bid) with
    | none =>
      rw [hf] at h
      exact absurd h (by simp)
    | some b0 =>
      rw [hf] at h
      have hdb2 : db2 = { db with books := removeFirst (ownerFilter uid bid) db.books } := by
        have := (Prod.mk.injEq .. ▸ h).2
        exact this.symm
      subst hdb2
      have hnone : (removeFirst (ownerFilter uid bid) db.books).find? (ownerFilter uid bid)
          = none := find?_removeFirst_none uid bid db.books hids
      unfold deleteBook
      rw [hnone]

theorem c5_witness :
    (updateBook wDb 2 0 w6Body
        = (UpdateResult.notFound "Book not found or you do not have permission.", wDb)
      ∧ deleteBook wDb 2 0
        = (DeleteResult.notFound "Book not found or you do not have permission.", wDb)
      ∧ (updateBook wDb 2 0 w6Body).1.status = 404
      ∧ (deleteBook wDb 2 0).1.status = 404)
  ∧ deleteBook w5Db2 1 0
      = (DeleteResult.notFound "Book not found or you do not have permission.", w5Db2) :=
  ⟨c5_notfound_scoped.1 wDb 2 0 w6Body (by decide),
   c5_notfound_scoped.2 wDb 1 0 w5Db2 (by decide) (by decide)⟩

/-- C4: a login with a stored user's email but a wrong password and a login
with an email belonging to no user produce literally the same 401
"Invalid credentials." outcome — the two failure runs are indistinguishable
to the caller. -/
theorem c4_login_indistinguishable :
    ∀ (db : DB) (e p e2 p2 : String) (u : User),
      db.users.find? (fun v => v.email == normalizeEmail e) = some u →
      bcompare p u.password = false →
      db.users.find? (fun v => v.email == normalizeEmail e2) = none →
      login db e p = LoginResult.invalidCredentials "Invalid credentials."
      ∧ login db e2 p2 = LoginResult.invalidCredentials "Invalid credentials."
      ∧ login db e p = login db e2 p2
      ∧ (login db e p).status = 401 := by
  intro db e p e2 p2 u h1 h2 h3
  have l1 : login db e p = LoginResult.invalidCredentials "Invalid credentials." := by
    simp [login, h1, h2]
  have l2 : login db e2 p2 = LoginResult.invalidCredentials "Invalid credentials." := by
    simp [login, h3]
  exact ⟨l1, l2, l1.trans l2.symm, by rw [l1]; rfl⟩

theorem c4_witness :
    login w4Db "a@b.c" "wrong1" = LoginResult.invalidCredentials "Invalid credentials."
  ∧ login w4Db "zz@q.c" "whatever" = LoginResult.invalidCredentials "Invalid credentials."
  ∧ login w4Db "a@b.c" "wrong1" = login w4Db "zz@q.c" "whatever"
  ∧ (login w4Db "a@b.c" "wrong1").status = 401 :=
  c4_login_indistinguishable w4Db "a@b.c" "wrong1" "zz@q.c" "whatever" w4User
    (by decide) (by decide) (by decide)

/-- C7: registering an email whose normalized form is already stored fails
with the 409 conflict, the state is unchanged (the first user's record is
unaffected), and nothing is overwritten. -/
theorem c7_duplicate_email :
    ∀ (db : DB) (e2 p2 : String) (u : User),
      u ∈ db.users → u.email = normalizeEmail e2 →
      e2 ≠ "" → p2 ≠ "" → 6 ≤ p2.length →
      register db (some e2) (some p2) = (RegisterResult.conflict "Email already exists.", db)
      ∧ (register db (some e2) (some p2)).1.status = 409
      ∧ u ∈ (register db (some e2) (some p2)).2.users := by
  intro db e2 p2 u hu he hne2 hnp2 hlen
  have hany : db.users.any (fun v => v.email == normalizeEmail e2) = true := by
    rw [List.any_eq_true]
    exact ⟨u, hu, by simp [he]⟩
  have hr : register db (some e2) (some p2)
      = (RegisterResult.conflict "Email already exists.", db) := by
    unfold register
    simp only [Option.getD_some]
    rw [if_neg (by simp [truthy, hne2, hnp2]; omega)]
    rw [if_pos hany]
  exact ⟨hr, by rw [hr]; rfl, by rw [hr]; exact hu⟩

theorem c7_witness :
    register w4Db (some " A@B.c") (some "longpass")
      = (RegisterResult.conflict "Email already exists.", w4Db)
  ∧ (register w4Db (some " A@B.c") (some "longpass")).1.status = 409
  ∧ w4User ∈ (register w4Db (some " A@B.c") (some "longpass")).2.users :=
  c7_duplicate_email w4Db " A@B.c" "longpass" w4User (by decide) (by decide)
    (by decide) (by decide) (by decide)

/-- C8: a registration whose email or password field is missing, or whose
password is shorter than 6 characters, fails with the 400 invalid-input
response and creates no user record — the stored users are unchanged. -/
theorem c8_invalid_registration :
    ∀ (db : DB) (email password : Option String),
      (email = none ∨ password = none ∨ ∃ p, password = some p ∧ p.length < 6) →
      register db email password
        = (RegisterResult.invalidInput "Invalid email or password (must be at least 6 characters).",
           db)
      ∧ (register db email password).1.status = 400
      ∧ (register db email password).2.users = db.users := by
  intro db email password h
  have hr : register db email password
      = (RegisterResult.invalidInput "Invalid email or password (must be at least 6 characters).",
         db) := by
    unfold register
    split
    · rfl
    · rename_i hc
      exfalso
      apply hc
      rcases h with h | h | ⟨p, hp, hlen⟩
      · subst h; simp [truthy]
      · subst h; simp [truthy]
      · subst hp; simp [truthy, hlen]
  exact ⟨hr, by rw [hr]; rfl, by rw [hr]⟩

theorem c8_witness :
    (register w4Db (some "new@q.c") (some "abc")
        = (RegisterResult.invalidInput "Invalid email or password (must be at least 6 characters).",
           w4Db)
      ∧ (register w4Db (some "new@q.c") (some "abc")).1.status = 400
      ∧ (register w4Db (some "new@q.c") (some "abc")).2.users = w4Db.users)
  ∧ (register w4Db none (some "longpass")).1.status = 400
  ∧ (register w4Db (some "new@q.c") none).1.status = 400 :=
  ⟨c8_invalid_registration w4Db (some "new@q.c") (some "abc")
      (Or.inr (Or.inr ⟨"abc", rfl, by decide⟩)),
   (c8_invalid_registration w4Db none (some "longpass") (Or.inl rfl)).2.1,
   (c8_invalid_registration w4Db (some "new@q.c") none (Or.inr (Or.inl rfl))).2.1⟩

/-- C9: the access guard answers 401 exactly when no token can be extracted
from the authorization header; every verification failure — whatever its
reason — is answered with the same 403, so failure reasons are not
distinguishable by the caller; on success the decoded identity is attached. -/
theorem c9_access_guard :
    (∀ (verify : String → Except VerifyErr Claims) (h : Option String),
        authenticateToken verify h = AuthResult.unauthenticated ↔ extractToken h = none)
  ∧ (∀ (verify : String → Except VerifyErr Claims) (h : Option String) (t : String)
        (e : VerifyErr),
        extractToken h = some t → verify t = Except.error e →
        authenticateToken verify h = AuthResult.forbidden
        ∧ (authenticateToken verify h).status = 403)
  ∧ (∀ (v1 v2 : String → Except VerifyErr Claims) (h : Option String) (t : String)
        (e1 e2 : VerifyErr),
        extractToken h = some t → v1 t = Except.error e1 → v2 t = Except.error e2 →
        authenticateToken v1 h = authenticateToken v2 h)
  ∧ (∀ (verify : String → Except VerifyErr Claims) (h : Option String) (t : String) (d : Claims),
        extractToken h = some t → verify t = Except.ok d →
        authenticateToken verify h = AuthResult.ok d)
  ∧ (∀ (verify : String → Except VerifyErr Claims) (h : Option String),
        (authenticateToken verify h).status = 401 ↔ extractToken h = none) := by
  have hfb : ∀ (verify : String → Except VerifyErr Claims) (h : Option String) (t : String)
      (e : VerifyErr), extractToken h = some t → verify t = Except.error e →
      authenticateToken verify h = AuthResult.forbidden := by
    intro verify h t e he hv
    simp [authenticateToken, he, hv]
  refine ⟨?_, ?_, ?_, ?_, ?_⟩
  · intro verify h
    cases he : extractToken h with
    | none => simp [authenticateToken, he]
    | some t =>
      cases hv : verify t with
      | error e => simp [authenticateToken, he, hv]
      | ok d => simp [authenticateToken, he, hv]
  · intro verify h t e he hv
    have hthis := hfb verify h t e he hv
    exact ⟨hthis, by rw [hthis]; rfl⟩
  · intro v1 v2 h t e1 e2 he h1 h2
    rw [hfb v1 h t e1 he h1, hfb v2 h t e2 he h2]
  · intro verify h t d he hv
    simp [authenticateToken, he, hv]
  · intro verify h
    cases he : extractToken h with
    | none => simp [authenticateToken, he, AuthResult.status]
    | some t =>
      cases hv : verify t with
      | error e => simp [authenticateToken, he, hv, AuthResult.status]
      | ok d => simp [authenticateToken, he, hv, AuthResult.status]

theorem c9_witness :
    (authenticateToken w9VerifyExpired (some "Bearer abc") = AuthResult.unauthenticated
      ↔ extractToken (some "Bearer abc") = none)
  ∧ (authenticateToken w9VerifyExpired (some "Bearer abc") = AuthResult.forbidden
      ∧ (authenticateToken w9VerifyExpired (some "Bearer abc")).status = 403)
  ∧ authenticateToken w9VerifyExpired (some "Bearer abc")
      = authenticateToken w9VerifyBadSig (some "Bearer abc")
  ∧ authenticateToken w9VerifyOk (some "Bearer abc")
      = AuthResult.ok { id := 3, email := "a@b.c" }
  ∧ authenticateToken w9VerifyOk none = AuthResult.unauthenticated :=
  ⟨c9_access_guard.1 w9VerifyExpired (some "Bearer abc"),
   c9_access_guard.2.1 w9VerifyExpired (some "Bearer abc") "abc" VerifyErr.expired
     (by decide) rfl,
   c9_access_guard.2.2.1 w9VerifyExpired w9VerifyBadSig (some "Bearer abc") "abc"
     VerifyErr.expired VerifyErr.badSignature (by decide) rfl rfl,
   c9_access_guard.2.2.2.1 w9VerifyOk (some "Bearer abc") "abc" { id := 3, email := "a@b.c" }
     (by decide) rfl,
   (c9_access_guard.1 w9VerifyOk none).mpr rfl⟩

/-! Relating the regex fragment to plain substring containment. -/

theorem matchesAt_map_lit :
    ∀ (p s : List Char),
      matchesAt (p.map RTok.lit) s = startsWithList (p.map Char.toLower) (s.map Char.toLower) := by
  intro p
  induction p with
  | nil => intro s; rfl
  | cons c cs ih =>
    intro s
    cases s with
    | nil => rfl
    | cons d ds => simp [matchesAt, startsWithList, tokMatches, ih]

theorem matchesIn_map_lit :
    ∀ (p s : List Char),
      matchesIn (p.map RTok.lit) s = occursIn (p.map Char.toLower) (s.map Char.toLower) := by
  intro p s
  induction s with
  | nil => exact matchesAt_map_lit p []
  | cons d ds ih => simp [matchesIn, occursIn, matchesAt_map_lit, ih]

theorem parseRegex_nodot (q : String) (h : ∀ c ∈ q.data, c ≠ '.') :
    parseRegex q = q.data.map RTok.lit := by
  unfold parseRegex
  apply List.map_congr_left
  intro c hc
  rw [if_neg]
  intro hb
  exact absurd (by simpa using hb) (h c hc)

theorem regexTestI_eq_specContainsCI (q s : String) (h : ∀ c ∈ q.data, c ≠ '.') :
    regexTestI q s = specContainsCI s q := by
  unfold regexTestI specContainsCI
  rw [parseRegex_nodot q h]
  exact matchesIn_map_lit q.data s.data

theorem bookMatches_eq_spec (q : String) (h : ∀ c ∈ q.data, c ≠ '.') (b : Book) :
    bookMatches q b = specBookMatches q b := by
  unfold bookMatches specBookMatches
  rw [regexTestI_eq_specContainsCI q b.title h, regexTestI_eq_specContainsCI q b.author h,
    regexTestI_eq_specContainsCI q b.isbn h]

/-- Unfolding lemma for the model only: how `searchBooks` computes on a
non-empty query.  It asserts nothing about the real handler outside the
modelled fragment; the claim-level statements restrict their queries
accordingly. -/
theorem searchBooks_ok (db : DB) (uid : Nat) (q : String) (hq : q ≠ "") :
    searchBooks db uid (some q)
      = SearchResult.ok (db.books.filter (fun b => b.user == uid && bookMatches q b)) := by
  unfold searchBooks
  rw [if_neg (by simp [truthy, hq])]
  rw [Option.getD_some]

/-- C3 (counterexample): the query is compiled to a regular expression, not
matched as a literal substring.  For the query "." the search returns a
book none of whose fields contains "." as a (case-insensitive) substring,
so search does not return "exactly the subset" the claim describes.  On
this input the model agrees with the JS handler: `/./i` tests true against
"abc", "xyz" and "777", none of which contains a literal dot. -/
theorem c3_counterexample :
    searchBooks cx3Db 1 (some ".") = SearchResult.ok [cx3Book]
  ∧ specBookMatches "." cx3Book = false
  ∧ cx3Db.books.filter (fun b => b.user == 1 && specBookMatches "." b) = [] := by
  refine ⟨by decide, by decide, by decide⟩

theorem filter_eq_nil_of_false (p : Book → Bool) :
    ∀ l : List Book, (∀ b ∈ l, p b = false) → l.filter p = [] := by
  intro l
  induction l with
  | nil => intro _; rfl
  | cons x xs ih =>
    intro h
    rw [List.filter_cons]
    rw [if_neg (by rw [h x (List.mem_cons_self x xs)]; exact Bool.false_ne_true)]
    exact ih (fun y hy => h y (List.mem_cons_of_mem x hy))

/-- C3 (amended): the search interprets the query as a regular expression,
not as a literal substring, so the claim fails for queries containing
regex metacharacters (the counterexample's "." query); for every non-empty
query consisting solely of alphanumeric characters — which contains no
metacharacter, so the pattern compiles and matches literally — the search
succeeds with status 200 and returns exactly the subset of the user's
books whose title, author, or isbn contains the query as a
case-insensitive substring, and returns the empty sequence `ok []`, not an
error, when no book matches.  Metacharacter-bearing queries are outside
this statement: the JS handler matches them as regexes, or answers 500
when the pattern does not compile. -/
theorem c3_amended :
    ∀ (db : DB) (uid : Nat) (q : String), q ≠ "" → (∀ c ∈ q.data, c.isAlphanum = true) →
      searchBooks db uid (some q)
        = SearchResult.ok (db.books.filter (fun b => b.user == uid && specBookMatches q b))
      ∧ (searchBooks db uid (some q)).status = 200
      ∧ ((∀ b ∈ db.books, (b.user == uid && specBookMatches q b) = false) →
          searchBooks db uid (some q) = SearchResult.ok []) := by
  intro db uid q hq halpha
  have hnd : ∀ c ∈ q.data, c ≠ '.' := by
    intro c hc he
    subst he
    exact absurd (halpha _ hc) (by decide)
  have heq : searchBooks db uid (some q)
      = SearchResult.ok (db.books.filter (fun b => b.user == uid && specBookMatches q b)) := by
    rw [searchBooks_ok db uid q hq]
    have hfe : (fun b : Book => b.user == uid && bookMatches q b)
        = (fun b : Book => b.user == uid && specBookMatches q b) := by
      funext b
      rw [bookMatches_eq_spec q hnd b]
    rw [hfe]
  refine ⟨heq, by rw [heq]; rfl, ?_⟩
  intro hnone
  rw [heq, filter_eq_nil_of_false _ db.books hnone]

theorem c3_amended_witness :
    (searchBooks wDb 1 (some "t")
        = SearchResult.ok (wDb.books.filter (fun b => b.user == 1 && specBookMatches "t" b))
      ∧ (searchBooks wDb 1 (some "t")).status = 200
      ∧ ((∀ b ∈ wDb.books, (b.user == 1 && specBookMatches "t" b) = false) →
          searchBooks wDb 1 (some "t") = SearchResult.ok []))
  ∧ searchBooks wDb 1 (some "qq") = SearchResult.ok [] :=
  ⟨c3_amended wDb 1 "t" (by decide) (by decide),
   (c3_amended wDb 1 "qq" (by decide) (by decide)).2.2 (by decide)⟩

/-! Helper lemmas for the update frame property (C6). -/

theorem map_ite_of_none (p : Book → Bool) (f : Book → Book) :
    ∀ l : List Book, (∀ y ∈ l, p y = false) →
      l.map (fun b => if p b then f b else b) = l := by
  intro l
  induction l with
  | nil => intro _; rfl
  | cons x xs ih =>
    intro h
    simp only [List.map]
    rw [if_neg (by rw [h x (List.mem_cons_self x xs)]; exact Bool.false_ne_true)]
    rw [ih (fun y hy => h y (List.mem_cons_of_mem x hy))]

theorem updateFirst_eq_map (p : Book → Bool) (f : Book → Book) (bid : Nat)
    (hp : ∀ x, p x = true → x.id = bid) :
    ∀ l : List Book, uniqueIds l →
      updateFirst p f l = l.map (fun b => if p b then f b else b) := by
  intro l
  induction l with
  | nil => intro _; rfl
  | cons x xs ih =>
    intro hu
    obtain ⟨hx, hxs⟩ := List.pairwise_cons.mp hu
    cases hpx : p x with
    | true =>
      rw [updateFirst, if_pos hpx]
      simp only [List.map]
      rw [if_pos hpx]
      rw [map_ite_of_none p f xs ?_]
      intro y hy
      cases hpy : p y with
      | false => rfl
      | true => exact absurd ((hp x hpx).trans (hp y hpy).symm) (hx y hy)
    | false =>
      rw [updateFirst, if_neg (by rw [hpx]; exact Bool.false_ne_true)]
      simp only [List.map]
      rw [if_neg (by rw [hpx]; exact Bool.false_ne_true)]
      rw [ih hxs]

theorem filter_map_comm (g : Book → Book) (uid : Nat)
    (hg : ∀ x, (g x).user = x.user) :
    ∀ l : List Book,
      (l.map g).filter (fun b => b.user == uid)
        = (l.filter (fun b => b.user == uid)).map g := by
  intro l
  induction l with
  | nil => rfl
  | cons x xs ih =>
    simp only [List.map_cons, List.filter_cons]
    rw [hg x]
    by_cases hx : (x.user == uid) = true
    · rw [if_pos hx, if_pos hx, List.map_cons, ih]
    · rw [if_neg hx, if_neg hx, ih]

theorem insertByCreated_map (g : Book → Book) (hg : ∀ x, (g x).createdAt = x.createdAt)
    (b : Book) : ∀ l : List Book,
      insertByCreated (g b) (l.map g) = (insertByCreated b l).map g := by
  intro l
  induction l with
  | nil => rfl
  | cons c cs ih =>
    simp only [List.map, insertByCreated]
    rw [hg c, hg b]
    by_cases h : c.createdAt ≤ b.createdAt
    · rw [if_pos h, if_pos h]
      rfl
    · rw [if_neg h, if_neg h]
      simp only [List.map]
      rw [ih]

theorem sortByCreatedDesc_map (g : Book → Book) (hg : ∀ x, (g x).createdAt = x.createdAt) :
    ∀ l : List Book, sortByCreatedDesc (l.map g) = (sortByCreatedDesc l).map g := by
  intro l
  induction l with
  | nil => rfl
  | cons b bs ih =>
    simp only [List.map, sortByCreatedDesc]
    rw [ih]
    exact insertByCreated_map g hg b (sortByCreatedDesc bs)

theorem mem_insertByCreated {x b : Book} :
    ∀ {l : List Book}, x ∈ insertByCreated b l ↔ x = b ∨ x ∈ l := by
  intro l
  induction l with
  | nil => simp [insertByCreated]
  | cons c cs ih =>
    simp only [insertByCreated]
    by_cases h : c.createdAt ≤ b.createdAt
    · rw [if_pos h]
      simp [List.mem_cons]
    · rw [if_neg h]
      simp only [List.mem_cons, ih]
      tauto

theorem mem_sortByCreatedDesc {x : Book} :
    ∀ {l : List Book}, x ∈ sortByCreatedDesc l ↔ x ∈ l := by
  intro l
  induction l with
  | nil => exact Iff.rfl
  | cons b bs ih => simp [sortByCreatedDesc, mem_insertByCreated, ih]

theorem updateBook_ok_inv (db : DB) (uid bid : Nat) (body : BookBody) (r : Book) (db2 : DB)
    (h : updateBook db uid bid body = (UpdateResult.ok r, db2)) :
    ∃ b0, db.books.find? (ownerFilter uid bid) = some b0 ∧ r = applyUpdate b0 body
      ∧ db2 = { db with
                  books := updateFirst (ownerFilter uid bid)
                    (fun x => applyUpdate x body) db.books } := by
  unfold updateBook at h
  cases hf : db.books.find? (ownerFilter uid bid) with
  | none =>
    rw [hf] at h
    exact absurd h (by simp)
  | some b0 =>
    rw [hf] at h
    simp only [Prod.mk.injEq, UpdateResult.ok.injEq] at h
    exact ⟨b0, rfl, h.1.symm, h.2.symm⟩

/-- C6: a successful partial update rewrites, in a subsequent `list`,
exactly the updated record: the fields present in the payload carry the new
values, every absent field keeps its previously stored value, and every
other record (and the list order) is untouched.  Mongo guarantees `_id`
uniqueness, which the list model takes as the `uniqueIds` frame condition;
the payload ranges over the client-facing book fields (no `user` path). -/
theorem c6_update_frame :
    ∀ (db : DB) (uid bid : Nat) (body : BookBody) (r : Book) (db2 : DB),
      uniqueIds db.books → body.user = none →
      updateBook db uid bid body = (UpdateResult.ok r, db2) →
      listBooks db2 uid
        = (listBooks db uid).map (fun b => if b.id == bid then applyUpdate b body else b)
      ∧ (∀ b : Book,
          (applyUpdate b body).user = b.user
        ∧ (applyUpdate b body).id = b.id
        ∧ (applyUpdate b body).createdAt = b.createdAt
        ∧ (body.title = none → (applyUpdate b body).title = b.title)
        ∧ (∀ v, body.title = some v → (applyUpdate b body).title = v)
        ∧ (body.author = none → (applyUpdate b body).author = b.author)
        ∧ (∀ v, body.author = some v → (applyUpdate b body).author = v)
        ∧ (body.isbn = none → (applyUpdate b body).isbn = b.isbn)
        ∧ (∀ v, body.isbn = some v → (applyUpdate b body).isbn = v)
        ∧ (body.date_purchased = none →
            (applyUpdate b body).date_purchased = b.date_purchased)
        ∧ (∀ v, body.date_purchased = some v → (applyUpdate b body).date_purchased = some v)
        ∧ (body.publisher = none → (applyUpdate b body).publisher = b.publisher)
        ∧ (∀ v, body.publisher = some v → (applyUpdate b body).publisher = some v)
        ∧ (body.notes = none → (applyUpdate b body).notes = b.notes)
        ∧ (∀ v, body.notes = some v → (applyUpdate b body).notes = some v)) := by
  intro db uid bid body r db2 hids huser h
  obtain ⟨b0, hf, hr, hdb2⟩ := updateBook_ok_inv db uid bid body r db2 h
  constructor
  · subst hdb2
    have hg_user : ∀ x : Book,
        ((fun b => if ownerFilter uid bid b then applyUpdate b body else b) x).user
          = x.user := by
      intro x
      by_cases hx : ownerFilter uid bid x
      · simp only [if_pos hx]
        simp [applyUpdate, huser]
      · simp only [if_neg hx]
    have hg_created : ∀ x : Book,
        ((fun b => if ownerFilter uid bid b then applyUpdate b body else b) x).createdAt
          = x.createdAt := by
      intro x
      by_cases hx : ownerFilter uid bid x
      · simp only [if_pos hx]
        rfl
      · simp only [if_neg hx]
    have h1 : updateFirst (ownerFilter uid bid) (fun x => applyUpdate x body) db.books
        = db.books.map (fun b => if ownerFilter uid bid b then applyUpdate b body else b) :=
      updateFirst_eq_map _ _ bid
        (fun x hx => by
          have hx' := hx
          simp [ownerFilter] at hx'
          exact hx'.1)
        db.books hids
    show sortByCreatedDesc
        ((updateFirst (ownerFilter uid bid) (fun x => applyUpdate x body)
          db.books).filter (fun b => b.user == uid))
      = (listBooks db uid).map (fun b => if b.id == bid then applyUpdate b body else b)
    rw [h1]
    rw [filter_map_comm _ uid hg_user]
    rw [sortByCreatedDesc_map _ hg_created]
    apply List.map_congr_left
    intro x hx
    have hxu : (x.user == uid) = true :=
      (List.mem_filter.mp (mem_sortByCreatedDesc.mp hx)).2
    by_cases hid : (x.id == bid) = true
    · rw [if_pos (show ownerFilter uid bid x = true by simp [ownerFilter, hid, hxu])]
      rw [if_pos hid]
    · rw [if_neg (by
        simp only [ownerFilter]
        rw [show (x.id == bid) = false from Bool.eq_false_iff.mpr hid]
        simp)]
      rw [if_neg hid]
  · intro b
    refine ⟨by simp [applyUpdate, huser], rfl, rfl, ?_, ?_, ?_, ?_, ?_, ?_, ?_, ?_, ?_, ?_,
      ?_, ?_⟩
    · intro h0; simp [applyUpdate, h0]
    · intro v hv; simp [applyUpdate, hv]
    · intro h0; simp [applyUpdate, h0]
    · intro v hv; simp [applyUpdate, hv]
    · intro h0; simp [applyUpdate, h0]
    · intro v hv; simp [applyUpdate, hv]
    · intro h0; simp [applyUpdate, h0]
    · intro v hv; simp [applyUpdate, hv]
    · intro h0; simp [applyUpdate, h0]
    · intro v hv; simp [applyUpdate, hv]
    · intro h0; simp [applyUpdate, h0]
    · intro v hv; simp [applyUpdate, hv]

theorem c6_witness :
    listBooks w6Db2 1
      = (listBooks wDb 1).map (fun b => if b.id == 0 then applyUpdate b w6Body else b) :=
  (c6_update_frame wDb 1 0 w6Body w6Book w6Db2 (by decide) rfl (by decide)).1

end BookChecklist
